import Mathlib

/-!
Verification development for the awp-exporter repository (main.go).

The definitions below are a shallow embedding of the Go source: each
definition's doc comment names the Go function or code region it embeds.
Strings are handled as `List Char`; all report traffic is ASCII, where
Lean's `Char` operations coincide with Go's byte-level ones.
-/

namespace Awp

/-- Embeds Go `strings.Cut(s, sep)` for a single-character separator
(the source only uses `strings.Cut` with separators `"&"` and `"="`):
returns `(before, after, found)` for the first occurrence of `c`. -/
def stringsCut (s : String) (c : Char) : String × String × Bool :=
  match go s.data with
  | some (b, a) => (⟨b⟩, ⟨a⟩, true)
  | none => (s, "", false)
where
  go : List Char → Option (List Char × List Char)
    | [] => none
    | x :: xs =>
      if x = c then some ([], xs)
      else (go xs).map (fun p => (x :: p.1, p.2))

/-- Embeds Go `path.Base`: strip trailing slashes, then keep the text after
the last `/`; empty input gives `"."` and an all-slash input gives `"/"`. -/
def pathBase (p : String) : String :=
  if p = "" then "."
  else
    let stripped := (p.data.reverse.dropWhile (fun c => c = '/')).reverse
    if stripped = [] then "/"
    else ⟨(stripped.reverse.takeWhile (fun c => c ≠ '/')).reverse⟩

/-- Hexadecimal digit test, as Go `net/url`'s `ishex`. -/
def ishex (c : Char) : Bool :=
  ('0' ≤ c ∧ c ≤ '9') ∨ ('a' ≤ c ∧ c ≤ 'f') ∨ ('A' ≤ c ∧ c ≤ 'F')

/-- Hexadecimal digit value, as Go `net/url`'s `unhex`. -/
def unhex (c : Char) : Nat :=
  if '0' ≤ c ∧ c ≤ '9' then c.toNat - '0'.toNat
  else if 'a' ≤ c ∧ c ≤ 'f' then c.toNat - 'a'.toNat + 10
  else if 'A' ≤ c ∧ c ≤ 'F' then c.toNat - 'A'.toNat + 10
  else 0

/-- Embeds the byte-building loop of Go `net/url.unescape` in
`encodeQueryComponent` mode: `%XY` becomes the byte `16*X+Y`, `+` becomes a
space, any other character is copied; a `%` not followed by two hex digits
is an error (`none`). -/
def unescapeList : List Char → Option (List Char)
  | [] => some []
  | '%' :: a :: b :: rest =>
    if ishex a ∧ ishex b then
      (unescapeList rest).map (fun l => Char.ofNat (16 * unhex a + unhex b) :: l)
    else none
  | '%' :: _ => none
  | '+' :: rest => (unescapeList rest).map (fun l => ' ' :: l)
  | c :: rest => (unescapeList rest).map (fun l => c :: l)

/-- Embeds Go `net/url.QueryUnescape`. -/
def queryUnescape (s : String) : Option String :=
  (unescapeList s.data).map (fun l => ⟨l⟩)

/-- Go `url.Values`: a map from key to the list of values seen for that key.
Modelled as an association list in key-first-insertion order (Go map
iteration order is unspecified; no claim below depends on the order). -/
abbrev Values := List (String × List String)

/-- Embeds Go `m[key] = append(m[key], value)` on a `url.Values` map. -/
def valuesAdd (m : Values) (k v : String) : Values :=
  if m.any (fun p => p.1 = k) then
    m.map (fun p => if p.1 = k then (p.1, p.2 ++ [v]) else p)
  else m ++ [(k, [v])]

/-- Embeds one iteration of the loop of Go `net/url.parseQuery`: a segment
containing `;` is an error and is skipped, an empty segment is skipped,
otherwise the segment is cut at the first `=` and both sides are
query-unescaped (a failed unescape skips the segment and records the
error). The `Bool` is `true` when some error was recorded. -/
def parseSegment (acc : Values × Bool) (seg : String) : Values × Bool :=
  if seg.data.contains ';' then (acc.1, true)
  else if seg = "" then acc
  else
    let (k, v, _) := stringsCut seg '='
    match queryUnescape k with
    | none => (acc.1, true)
    | some key =>
      match queryUnescape v with
      | none => (acc.1, true)
      | some value => (valuesAdd acc.1 key value, acc.2)

/-- Splits a character list on every occurrence of `c` (Go's repeated
`strings.Cut(query, "&")` loop structure). -/
def splitChar (c : Char) : List Char → List (List Char)
  | [] => [[]]
  | x :: xs =>
    if x = c then [] :: splitChar c xs
    else
      match splitChar c xs with
      | [] => [[x]]
      | seg :: rest => (x :: seg) :: rest

/-- Embeds Go `net/url.ParseQuery`: the query is consumed `&`-segment by
`&`-segment via `parseSegment`. Returns the decoded map and an
error flag (Go returns the first error; only its presence matters here). -/
def parseQuery (query : String) : Values × Bool :=
  ((splitChar '&' query.data).map (fun l => (⟨l⟩ : String))).foldl parseSegment ([], false)

/-- The request-URL data the handler reads: `r.URL.Path` and `r.URL.RawQuery`. -/
structure ReqURL where
  path : String
  rawQuery : String
deriving DecidableEq

/-- Embeds the decoding front half of `reportHandler` (main.go lines
225-236): when `RawQuery` is non-empty it is parsed normally and the
station is the final segment of the full path; otherwise the path is cut at
the first `&`, the station is the final segment of the part before it, and
the part after it is parsed as a query string. Returns
`(station, values, errorFlag)`. -/
def decodeReport (u : ReqURL) : String × Values × Bool :=
  if u.rawQuery ≠ "" then
    let (vals, err) := parseQuery u.rawQuery
    (pathBase u.path, vals, err)
  else
    let (urlPath, queryParams, _) := stringsCut u.path '&'
    let (vals, err) := parseQuery queryParams
    (pathBase urlPath, vals, err)

/-- ASCII upper-casing of a string, as Go `strings.ToUpper` restricted to
ASCII (all field names in the protocol are ASCII). -/
def goToUpper (s : String) : String := ⟨s.data.map Char.toUpper⟩

/-- The `ignoredKeys` variable of main.go: parameters never turned into
metrics. -/
def ignoredKeys : List String :=
  ["PASSKEY", "MAC", "STATIONTYPE", "SOFTWARETYPE", "DATEUTC", "TZ"]

/-- A `prometheus.GaugeVec` as far as this program observes it: the metric
name and help string it was constructed with (the label dimension is always
`["station"]`). -/
structure GaugeVec where
  name : String
  help : String
deriving DecidableEq

/-- The map inside main.go's `gaugeMap`: sensor-name → GaugeVec, modelled
as an association list in insertion order. -/
abbrev Registry := List (String × GaugeVec)

/-- Modelled from the Prometheus client library contract used by
`prometheus.MustRegister`: a metric name must match
`[a-zA-Z_:][a-zA-Z0-9_:]*`; registering a collector whose descriptor has an
invalid name panics. Head-character class. -/
def validMetricHeadChar (c : Char) : Bool := c.isAlpha ∨ c = '_' ∨ c = ':'

/-- Continuation-character class of a valid Prometheus metric name. -/
def validMetricChar (c : Char) : Bool := validMetricHeadChar c ∨ c.isDigit

/-- Valid Prometheus metric name: `[a-zA-Z_:][a-zA-Z0-9_:]*`. -/
def validMetricName (s : String) : Bool :=
  match s.data with
  | [] => false
  | c :: rest => validMetricHeadChar c && rest.all validMetricChar

/-- Embeds `getGauge` of main.go (lines 193-215): under the lock, return
the existing GaugeVec for `field` if present; otherwise build one named
`awp_<field>` with help `AWP sensor value for <field>` and register it.
`prometheus.MustRegister` panics when the metric name is invalid —
modelled as `Except.error`; the panic happens before the map insert, so the
map is unchanged in that case. -/
def getGauge (R : Registry) (field : String) : Except String (GaugeVec × Registry) :=
  match R.lookup field with
  | some g => .ok (g, R)
  | none =>
    let g : GaugeVec := ⟨"awp_" ++ field, "AWP sensor value for " ++ field⟩
    if validMetricName g.name then .ok (g, R ++ [(field, g)])
    else .error ("descriptor invalid: " ++ g.name)

/-- The registry state after a `getGauge` call (a panic leaves the map as
it was). -/
def runGetGauge (R : Registry) (field : String) : Registry :=
  match getGauge R field with
  | .ok (_, R2) => R2
  | .error _ => R

/-- The key set of the registry map. -/
def registryKeys (R : Registry) : List String := R.map Prod.fst

/-- The two operations ever applied to the registry by the program:
`getGauge` (the only mutator of the map) and a gauge-value `Set`, which
never touches the map. -/
inductive RegOp where
  | get (field : String)
  | set (field station value : String)

/-- One registry operation applied to the map state. -/
def runOp (R : Registry) : RegOp → Registry
  | .get f => runGetGauge R f
  | .set _ _ _ => R

/-- A sequence of registry operations applied to the map state. -/
def runOps (R : Registry) (ops : List RegOp) : Registry := ops.foldl runOp R

/-- Go `strconv`'s `lower`: fold an ASCII letter to lower case by setting
bit 0x20. -/
def goLower (c : Char) : Char := Char.ofNat (c.toNat ||| 0x20)

/-- Decimal digit test. -/
def isDigit09 (c : Char) : Bool := '0' ≤ c ∧ c ≤ '9'

/-- Hexadecimal letter test after `goLower` (the extra mantissa digits of a
hex float). -/
def isHexLetter (c : Char) : Bool := 'a' ≤ goLower c ∧ goLower c ≤ 'f'

/-- Drop one leading `+` or `-`, as strconv's optional-sign step. -/
def dropSign : List Char → List Char
  | c :: rest => if c = '+' ∨ c = '-' then rest else c :: rest
  | [] => []

/-- ASCII case-insensitive equality of character lists, as
`strings.EqualFold` on ASCII. -/
def eqFoldL (a b : List Char) : Bool :=
  match a, b with
  | [], [] => true
  | x :: xs, y :: ys => goLower x = goLower y && eqFoldL xs ys
  | _, _ => false

/-- Modelled from Go `strconv`'s `special`: after an optional sign, the
strings `inf` and `infinity` (case-insensitive) are special values; an
unsigned `nan` (case-insensitive) is as well. `ParseFloat` demands that
the whole input be consumed, so only exact matches are accepted. -/
def isSpecial (s : List Char) : Bool :=
  match s with
  | [] => false
  | c :: rest =>
    if c = '+' ∨ c = '-' then
      eqFoldL rest ['i', 'n', 'f'] ∨ eqFoldL rest "infinity".data
    else
      eqFoldL s ['i', 'n', 'f'] ∨ eqFoldL s "infinity".data ∨ eqFoldL s ['n', 'a', 'n']

/-- The state classes of Go `strconv`'s `underscoreOK` scan: start of
number, a digit (or base prefix), an underscore, any other character. -/
inductive USaw where
  | start
  | digit
  | under
  | other
deriving DecidableEq

/-- The character scan of Go `strconv`'s `underscoreOK`: an underscore must
be preceded and followed by a digit (the base prefix counting as a digit). -/
def underscoreScan (hex : Bool) : USaw → List Char → Bool
  | saw, [] => saw ≠ USaw.under
  | saw, c :: rest =>
    if isDigit09 c ∨ (hex ∧ isHexLetter c) then underscoreScan hex USaw.digit rest
    else if c = '_' then
      if saw = USaw.digit then underscoreScan hex USaw.under rest else false
    else if saw = USaw.under then false
    else underscoreScan hex USaw.other rest

/-- Modelled from Go `strconv.underscoreOK`: whether the underscores in a
numeric literal sit only between digits or between a base prefix and a
digit. -/
def underscoreOK (s : List Char) : Bool :=
  let s1 := dropSign s
  match s1 with
  | '0' :: b :: rest =>
    if goLower b = 'b' ∨ goLower b = 'o' ∨ goLower b = 'x' then
      underscoreScan (goLower b = 'x') USaw.digit rest
    else underscoreScan false USaw.start s1
  | _ => underscoreScan false USaw.start s1

/-- The mantissa loop of Go `strconv`'s `readFloat`: consume digits (hex
digits when `hex`), at most one `.`, and underscores; stop at the first
other character. Returns the unconsumed tail, whether any digit was seen,
and whether an underscore was seen. -/
def mantissaLoop (hex : Bool) : List Char → Bool → Bool → Bool → List Char × Bool × Bool
  | [], _, sawdigits, us => ([], sawdigits, us)
  | c :: rest, sawdot, sawdigits, us =>
    if c = '_' then mantissaLoop hex rest sawdot sawdigits true
    else if c = '.' then
      if sawdot then (c :: rest, sawdigits, us)
      else mantissaLoop hex rest true sawdigits us
    else if isDigit09 c ∨ (hex ∧ isHexLetter c) then mantissaLoop hex rest sawdot true us
    else (c :: rest, sawdigits, us)

/-- The exponent-digit loop of `readFloat`: consume decimal digits and
underscores. Returns the unconsumed tail and the updated underscore flag. -/
def expDigits : List Char → Bool → List Char × Bool
  | [], us => ([], us)
  | c :: rest, us =>
    if isDigit09 c then expDigits rest us
    else if c = '_' then expDigits rest true
    else (c :: rest, us)

/-- Modelled from Go `strconv`'s `readFloat` combined with `ParseFloat`'s
full-consumption requirement: whether `s` is a syntactically valid Go
floating-point number (optional sign; decimal mantissa with optional `.`
and optional `e`-exponent, or `0x` hex mantissa with mandatory
`p`-exponent; digit-separator underscores per `underscoreOK`). -/
def goAcceptNumber (s : List Char) : Bool :=
  let s1 := dropSign s
  let hexBody : Bool × List Char :=
    match s1 with
    | '0' :: x :: rest =>
      if goLower x = 'x' ∧ rest ≠ [] then (true, rest) else (false, s1)
    | _ => (false, s1)
  let hex := hexBody.1
  let (rest1, sawdigits, us1) := mantissaLoop hex hexBody.2 false false false
  if ¬ sawdigits then false
  else
    match rest1 with
    | [] => if hex then false else (¬ us1 ∨ underscoreOK s)
    | c :: rest2 =>
      if goLower c = (if hex then 'p' else 'e') then
        match dropSign rest2 with
        | [] => false
        | d :: tail =>
          if isDigit09 d then
            let (rest4, us2) := expDigits (d :: tail) us1
            rest4 = [] ∧ (¬ us2 ∨ underscoreOK s)
          else false
      else false

/-- Modelled from Go `strconv.ParseFloat`'s success condition: the whole
input is a special value (`inf`, `nan`, ...) or a syntactically valid
number. (A range overflow on a syntactically valid extreme such as `1e999`
returns `ErrRange` in Go and is not modelled; no claim depends on it.) -/
def goParseFloatAccepts (s : String) : Bool :=
  isSpecial s.data ∨ goAcceptNumber s.data

/-- A `gauge.WithLabelValues(station).Set(value)` call as the loop issues
it; the numeric value is recorded as the raw string whose parse succeeded. -/
structure SetOp where
  field : String
  station : String
  value : String
deriving DecidableEq

/-- Embeds the metrics loop of `reportHandler` (main.go lines 247-257):
for each `(k, vv)` pair, skip it when `ToUpper(k)` is in `ignoredKeys`;
otherwise, when `vv[0]` parses as a float, `getGauge(k)` and set the value
for the station. An out-of-range `vv[0]` index or a `getGauge` panic
aborts the loop (modelled by the final `Bool`), leaving the registry as it
was at that point. Go map iteration order is unspecified; the list order
of `vals` stands in for it. Returns (registry, set-calls, panicked). -/
def processVals (station : String) : Registry → Values → Registry × List SetOp × Bool
  | R, [] => (R, [], false)
  | R, (k, vv) :: rest =>
    if ignoredKeys.contains (goToUpper k) then processVals station R rest
    else
      match vv with
      | [] => (R, [], true)
      | v :: _ =>
        if goParseFloatAccepts v then
          match getGauge R k with
          | .ok (_, R2) =>
            let (R3, ops, pan) := processVals station R2 rest
            (R3, ⟨k, station, v⟩ :: ops, pan)
          | .error _ => (R, [], true)
        else processVals station R rest

/-- The fixed device-facing response written by `w.WriteHeader(http.StatusNoContent)`
as the handler's first statement: status code and body. -/
structure Response where
  status : Nat
  body : String
deriving DecidableEq

/-- The arguments of the `go mirrorRequest(r.URL, vals, awpStation)` launch
(main.go line 245). -/
structure MirrorCall where
  originalURL : ReqURL
  vals : Values
  station : String
deriving DecidableEq

/-- Everything `reportHandler` does on one request. The response is written
before any decoding or metrics work, so it is a fixed field independent of
the rest (even a panic in the loop happens after the 204 went out). -/
structure HandlerResult where
  response : Response
  mirror : MirrorCall
  registry : Registry
  setCalls : List SetOp
  panicked : Bool
deriving DecidableEq

/-- Embeds `reportHandler` of main.go (lines 217-258): write the 204
response, decode the report, launch the mirror with the full decoded value
set, then run the metrics loop. -/
def reportHandler (R : Registry) (u : ReqURL) : HandlerResult :=
  let (station, vals, _err) := decodeReport u
  let (R2, ops, pan) := processVals station R vals
  { response := ⟨204, ""⟩
    mirror := ⟨u, vals, station⟩
    registry := R2
    setCalls := ops
    panicked := pan }

/-- The mirror flags of main.go: `mirror-host`, `mirror-port` (default
8000), `mirror-path` (default `/data/report`), `mirror-https` (default
false). -/
structure MirrorConfig where
  host : String
  port : Int
  path : String
  https : Bool
deriving DecidableEq

/-- The scheme chosen by `mirrorRequest` (main.go lines 266-269). -/
def mirrorScheme (cfg : MirrorConfig) : String :=
  if cfg.https then "https" else "http"

/-- The port used by `mirrorRequest` (main.go lines 267-274): under HTTPS
a port equal to 80 is changed to 443; any other port is kept. -/
def mirrorEffectivePort (cfg : MirrorConfig) : Int :=
  if cfg.https ∧ cfg.port = 80 then 443 else cfg.port

/-- Character class kept verbatim by Go `net/url.QueryEscape`:
alphanumerics and `-`, `_`, `.`, `~`. -/
def isUnreservedQueryChar (c : Char) : Bool :=
  c.isAlphanum ∨ c = '-' ∨ c = '_' ∨ c = '.' ∨ c = '~'

/-- Upper-case hexadecimal digit of a value below 16. -/
def hexDigitUpper (n : Nat) : Char :=
  if n < 10 then Char.ofNat (48 + n) else Char.ofNat (55 + n)

/-- Per-character escaping of Go `net/url.QueryEscape`: unreserved
characters are kept, a space becomes `+`, anything else becomes `%XX`
(ASCII: one character is one byte). -/
def escapeChar (c : Char) : List Char :=
  if isUnreservedQueryChar c then [c]
  else if c = ' ' then ['+']
  else ['%', hexDigitUpper (c.toNat / 16), hexDigitUpper (c.toNat % 16)]

/-- Embeds Go `net/url.QueryEscape` on ASCII strings. -/
def queryEscape (s : String) : String := ⟨(s.data.map escapeChar).flatten⟩

/-- Lexicographic (byte-order) comparison of character lists, as Go
`sort.Strings` uses on ASCII. -/
def charListLe : List Char → List Char → Bool
  | [], _ => true
  | _ :: _, [] => false
  | a :: as, b :: bs =>
    if a < b then true else if b < a then false else charListLe as bs

/-- String order used by `sort.Strings` in `url.Values.Encode`. -/
def strLe (a b : String) : Bool := charListLe a.data b.data

/-- Insertion into a key-sorted `url.Values` association list. -/
def insertSorted (x : String × List String) : Values → Values
  | [] => [x]
  | y :: ys => if strLe x.1 y.1 then x :: y :: ys else y :: insertSorted x ys

/-- Key-sorting step of Go `url.Values.Encode` (`sort.Strings(keys)`). -/
def sortByKey (l : Values) : Values := l.foldr insertSorted []

/-- Embeds Go `url.Values.Encode`: keys sorted, every key and value
query-escaped, each `key=value` pair joined with `&` (values of one key in
list order). -/
def valuesEncode (vals : Values) : String :=
  String.intercalate "&"
    (((sortByKey vals).map
      (fun p => p.2.map (fun v => queryEscape p.1 ++ "=" ++ queryEscape v))).flatten)

/-- Embeds Go `strings.TrimSuffix(s, "/")`: remove one trailing slash if
present. -/
def trimTrailingSlash (s : String) : String :=
  match s.data.reverse with
  | '/' :: rest => ⟨rest.reverse⟩
  | _ => s

/-- Embeds the `mirrorURL` construction and `mirrorURL.String()` of
`mirrorRequest` (main.go lines 276-282): scheme, `host:port`, the
trimmed mirror path — the station is not appended — and the encoded value
set as query (the `?` omitted when the query is empty, as `url.URL.String`
does). The configured path is assumed to need no escaping. -/
def buildMirrorURL (cfg : MirrorConfig) (vals : Values) : String :=
  let q := valuesEncode vals
  mirrorScheme cfg ++ "://" ++ cfg.host ++ ":" ++ toString (mirrorEffectivePort cfg) ++
    trimTrailingSlash cfg.path ++ (if q = "" then "" else "?" ++ q)

/-- The outbound mirror request as built by `http.NewRequest` plus the
`req.Header.Set("User-Agent", ...)` line (main.go lines 285-295). -/
structure OutboundRequest where
  method : String
  url : String
  userAgent : String
deriving DecidableEq

/-- Embeds `mirrorRequest` of main.go (lines 261-295) up to the network
send: no-op when no mirror host is configured, otherwise a GET to the
built URL with the fixed User-Agent header. The `station` argument is
used only for logging in the source and does not influence the request. -/
def mirrorRequest (cfg : MirrorConfig) (vals : Values) (station : String) :
    Option OutboundRequest :=
  if cfg.host = "" then none
  else some ⟨"GET", buildMirrorURL cfg vals, "awp-exporter-mirror/1.0"⟩

/-! ## Helper lemmas on the registry map -/

/-- A key is absent from the map exactly when `lookup` misses. -/
lemma lookup_eq_none_iff (R : Registry) (f : String) :
    R.lookup f = none ↔ f ∉ registryKeys R := by
  induction R with
  | nil => simp [registryKeys]
  | cons p R ih =>
    rcases p with ⟨k, g⟩
    by_cases hfk : f = k
    · subst hfk
      simp [List.lookup, registryKeys]
    · have hbeq : (f == k) = false := by
        simp [hfk]
      simp [List.lookup, hbeq, registryKeys, hfk, ih]

/-- Appending an entry for a different key does not change a lookup. -/
lemma lookup_append_single (R : Registry) (k k2 : String) (g : GaugeVec)
    (h : k ≠ k2) : (R ++ [(k2, g)]).lookup k = R.lookup k := by
  induction R with
  | nil =>
    have hbeq : (k == k2) = false := by
      simp [h]
    simp [List.lookup, hbeq]
  | cons p R ih =>
    rcases p with ⟨k3, g3⟩
    by_cases hfk : k = k3
    · subst hfk
      simp [List.lookup]
    · have hbeq : (k == k3) = false := by
        simp [hfk]
      simp [List.lookup, hbeq, ih]

/-- `runGetGauge` either keeps the map or appends the one new entry for the
requested field. -/
lemma runGetGauge_cases (R : Registry) (f : String) :
    runGetGauge R f = R ∨
      runGetGauge R f = R ++ [(f, ⟨"awp_" ++ f, "AWP sensor value for " ++ f⟩)] := by
  unfold runGetGauge getGauge
  cases hl : R.lookup f with
  | some g => simp
  | none =>
    by_cases hv : validMetricName ("awp_" ++ f) = true
    · simp [hv]
    · simp [hv]

/-- Keys survive a `getGauge` call. -/
lemma mem_keys_runGetGauge (R : Registry) (f k : String)
    (h : k ∈ registryKeys R) : k ∈ registryKeys (runGetGauge R f) := by
  rcases runGetGauge_cases R f with hc | hc <;> rw [hc]
  · exact h
  · simp [registryKeys] at h ⊢
    exact Or.inl h

/-- Keys survive any sequence of registry operations. -/
lemma mem_keys_runOps (R : Registry) (ops : List RegOp) (k : String)
    (h : k ∈ registryKeys R) : k ∈ registryKeys (runOps R ops) := by
  induction ops generalizing R with
  | nil => exact h
  | cons op ops ih =>
    cases op with
    | get f => exact ih _ (mem_keys_runGetGauge R f k h)
    | set f st v => exact ih _ h

/-- Every key that a reachable registry holds was inserted through
`getGauge`'s create branch, so its metric name passed validation. -/
lemma keys_valid_runOps (R : Registry) (ops : List RegOp)
    (hR : ∀ k ∈ registryKeys R, validMetricName ("awp_" ++ k) = true) :
    ∀ k ∈ registryKeys (runOps R ops), validMetricName ("awp_" ++ k) = true := by
  induction ops generalizing R with
  | nil => exact hR
  | cons op ops ih =>
    cases op with
    | set f st v => exact ih _ hR
    | get f =>
      refine ih _ ?_
      intro k hk
      simp only [runOp] at hk
      unfold runGetGauge getGauge at hk
      cases hl : R.lookup f with
      | some g =>
        rw [hl] at hk
        exact hR k hk
      | none =>
        rw [hl] at hk
        by_cases hv : validMetricName ("awp_" ++ f) = true
        · simp [hv, registryKeys] at hk
          rcases hk with hk | hk
          · exact hR k (by simpa [registryKeys] using hk)
          · subst hk
            exact hv
        · simp [hv] at hk
          exact hR k hk

/-! ## Claims -/

/-- C1: for sink host `h`, port 8000, path `/data/report`, HTTPS disabled,
station `TEST_STATION` and pairs `{tempf: 72.5, humidity: 45, PASSKEY: abc}`,
the Mirror Dispatcher's outbound request is a GET carrying
`User-Agent: awp-exporter-mirror/1.0` whose target is
`http://h:8000/data/report?PASSKEY=abc&humidity=45&tempf=72.5` — the
station identifier is NOT appended to the sink path, contradicting the
claimed target `http://h:8000/data/report/TEST_STATION?...`. -/
theorem c1_mirror_url_eval :
    mirrorRequest ⟨"h", 8000, "/data/report", false⟩
        [("tempf", ["72.5"]), ("humidity", ["45"]), ("PASSKEY", ["abc"])] "TEST_STATION" =
      some ⟨"GET", "http://h:8000/data/report?PASSKEY=abc&humidity=45&tempf=72.5",
        "awp-exporter-mirror/1.0"⟩ ∧
    ("http://h:8000/data/report?PASSKEY=abc&humidity=45&tempf=72.5" : String) ≠
      "http://h:8000/data/report/TEST_STATION?PASSKEY=abc&humidity=45&tempf=72.5" := by
  constructor
  · rfl
  · decide

/-- C2: the non-conformant target `/data/report/STATION&tempf=72.5&humidity=45`
decodes to station `STATION` and fields `{tempf: 72.5, humidity: 45}`,
identically to the conformant `/data/report/STATION?tempf=72.5&humidity=45`;
in general a non-empty standard query component is decoded with the station
as the final path segment, and otherwise the path is cut at the first `&`,
the station is the final segment of the part before, and the part after is
decoded as a query string. -/
theorem c2_nonconformant_decoding :
    (decodeReport ⟨"/data/report/STATION&tempf=72.5&humidity=45", ""⟩ =
        ("STATION", [("tempf", ["72.5"]), ("humidity", ["45"])], false) ∧
      decodeReport ⟨"/data/report/STATION", "tempf=72.5&humidity=45"⟩ =
        ("STATION", [("tempf", ["72.5"]), ("humidity", ["45"])], false)) ∧
    ∀ u : ReqURL,
      (u.rawQuery ≠ "" →
        decodeReport u = (pathBase u.path, parseQuery u.rawQuery)) ∧
      (u.rawQuery = "" →
        decodeReport u =
          (pathBase (stringsCut u.path '&').1, parseQuery (stringsCut u.path '&').2.1)) := by
  constructor
  · constructor
    · decide
    · decide
  · intro u
    constructor
    · intro h
      simp [decodeReport, h]
    · intro h
      simp [decodeReport, h]

/-- C2 witness: the general decision rule applied at concrete targets. -/
theorem c2_nonconformant_decoding_witness :
    decodeReport ⟨"/data/report/S", "a=1"⟩ = (pathBase "/data/report/S", parseQuery "a=1") ∧
    decodeReport ⟨"/data/report/S&a=1", ""⟩ =
      (pathBase (stringsCut "/data/report/S&a=1" '&').1,
        parseQuery (stringsCut "/data/report/S&a=1" '&').2.1) :=
  ⟨(c2_nonconformant_decoding.2 ⟨"/data/report/S", "a=1"⟩).1 (by decide),
    (c2_nonconformant_decoding.2 ⟨"/data/report/S&a=1", ""⟩).2 (by decide)⟩

/-- C3: the registry invariant. `getGauge` returns the existing handle
unchanged when one is present; otherwise a normal return inserts exactly
the one new entry for the field; a `getGauge` call preserves key
uniqueness; and across any sequence of registry operations the key set
only grows (entries are never removed). -/
theorem c3_registry_invariant :
    (∀ (R : Registry) (f : String) (g : GaugeVec),
        R.lookup f = some g → getGauge R f = .ok (g, R)) ∧
    (∀ (R : Registry) (f : String) (g : GaugeVec) (R2 : Registry),
        R.lookup f = none → getGauge R f = .ok (g, R2) → R2 = R ++ [(f, g)]) ∧
    (∀ (R : Registry) (f : String),
        (registryKeys R).Nodup → (registryKeys (runGetGauge R f)).Nodup) ∧
    (∀ (R : Registry) (ops : List RegOp) (k : String),
        k ∈ registryKeys R → k ∈ registryKeys (runOps R ops)) := by
  refine ⟨?_, ?_, ?_, mem_keys_runOps⟩
  · intro R f g h
    unfold getGauge
    rw [h]
  · intro R f g R2 h hok
    unfold getGauge at hok
    rw [h] at hok
    by_cases hv : validMetricName ("awp_" ++ f) = true
    · simp [hv] at hok
      rw [← hok.1, hok.2]
    · simp [hv] at hok
  · intro R f h
    unfold runGetGauge getGauge
    cases hl : R.lookup f with
    | some g => simpa using h
    | none =>
      by_cases hv : validMetricName ("awp_" ++ f) = true
      · have hfnotin : f ∉ registryKeys R := (lookup_eq_none_iff R f).mp hl
        simp only [hv, if_true]
        simp [registryKeys, List.nodup_append]
        refine ⟨by simpa [registryKeys] using h, ?_⟩
        intro a ha
        exact hfnotin (by simpa [registryKeys] using List.mem_map_of_mem Prod.fst ha)
      · simpa [hv] using h

/-- C3 witness: the invariant applied at concrete registries — a hit
returns the existing handle unchanged, and keys survive a concrete
operation sequence. -/
theorem c3_registry_invariant_witness :
    getGauge [("tempf", ⟨"awp_tempf", "AWP sensor value for tempf"⟩)] "tempf" =
      .ok (⟨"awp_tempf", "AWP sensor value for tempf"⟩,
        [("tempf", ⟨"awp_tempf", "AWP sensor value for tempf"⟩)]) ∧
    "tempf" ∈ registryKeys
      (runOps [("tempf", ⟨"awp_tempf", "AWP sensor value for tempf"⟩)]
        [RegOp.get "humidity", RegOp.set "tempf" "ST" "72.5", RegOp.get "tempf"]) :=
  ⟨c3_registry_invariant.1 _ "tempf" _ (by decide),
    c3_registry_invariant.2.2.2 _
      [RegOp.get "humidity", RegOp.set "tempf" "ST" "72.5", RegOp.get "tempf"]
      "tempf" (by decide)⟩

/-- C4: every request to the report endpoint receives the fixed
`204 No Content`, empty-body response, whatever the path, query, registry
state, parse outcome or mirror configuration (the handler does not even
consult the mirror configuration before responding; the response field of
the handler result is independent of everything else). -/
theorem c4_always_204 (R : Registry) (u : ReqURL) :
    (reportHandler R u).response = ⟨204, ""⟩ := rfl

/-- C5 counterexample: with HTTPS selected and the mirror port left at its
flag default 8000, the outbound port stays 8000 — it is not defaulted
to 443 as the claim states (the source only rewrites a port equal to 80). -/
theorem c5_counterexample :
    mirrorScheme ⟨"h", 8000, "/data/report", true⟩ = "https" ∧
    mirrorEffectivePort ⟨"h", 8000, "/data/report", true⟩ = 8000 ∧
    (8000 : Int) ≠ 443 ∧
    buildMirrorURL ⟨"h", 8000, "/data/report", true⟩ [] = "https://h:8000/data/report" := by
  refine ⟨by decide, by decide, by decide, ?_⟩
  rfl

/-- C5 amended: when the mirror-HTTPS flag is selected the outbound scheme
is `https`, and the port is defaulted to 443 exactly when it was set
to 80 (the HTTP plaintext default port); any other configured port — the
flag default 8000 included — is used as given. -/
theorem c5_https_port (cfg : MirrorConfig) (h : cfg.https = true) :
    mirrorScheme cfg = "https" ∧
    (cfg.port = 80 → mirrorEffectivePort cfg = 443) ∧
    (cfg.port ≠ 80 → mirrorEffectivePort cfg = cfg.port) := by
  refine ⟨by simp [mirrorScheme, h], ?_, ?_⟩
  · intro hp
    simp [mirrorEffectivePort, h, hp]
  · intro hp
    simp [mirrorEffectivePort, h, hp]

/-- C5 witness: the amended rule at port 80 and at the flag default 8000. -/
theorem c5_https_port_witness :
    mirrorEffectivePort ⟨"h", 80, "/data/report", true⟩ = 443 ∧
    mirrorEffectivePort ⟨"h", 8000, "/data/report", true⟩ = 8000 :=
  ⟨(c5_https_port ⟨"h", 80, "/data/report", true⟩ (by decide)).2.1 (by decide),
    (c5_https_port ⟨"h", 8000, "/data/report", true⟩ (by decide)).2.2 (by decide)⟩

/-- C6 counterexample: creating the gauge for field `UV` names the metric
`awp_UV` — the field's casing is preserved — not the lower-cased `awp_uv`
the claim states. -/
theorem c6_counterexample :
    getGauge [] "UV" =
      .ok (⟨"awp_UV", "AWP sensor value for UV"⟩,
        [("UV", ⟨"awp_UV", "AWP sensor value for UV"⟩)]) ∧
    ("awp_UV" : String) ≠ "awp_uv" := by
  refine ⟨?_, by decide⟩
  rfl

/-- C6 amended: a newly created gauge collection for field `F` is named
`awp_` followed by `F` with its casing preserved as received, with help
string `AWP sensor value for F`. -/
theorem c6_naming (R : Registry) (f : String) (g : GaugeVec) (R2 : Registry)
    (h : R.lookup f = none) (hok : getGauge R f = .ok (g, R2)) :
    g.name = "awp_" ++ f ∧ g.help = "AWP sensor value for " ++ f := by
  unfold getGauge at hok
  rw [h] at hok
  by_cases hv : validMetricName ("awp_" ++ f) = true
  · simp [hv] at hok
    rw [← hok.1]
    exact ⟨rfl, rfl⟩
  · simp [hv] at hok

/-- C6 witness: the naming convention at a concrete new field. -/
theorem c6_naming_witness :
    (⟨"awp_tempf", "AWP sensor value for tempf"⟩ : GaugeVec).name = "awp_" ++ "tempf" ∧
    (⟨"awp_tempf", "AWP sensor value for tempf"⟩ : GaugeVec).help =
      "AWP sensor value for " ++ "tempf" :=
  c6_naming [] "tempf" ⟨"awp_tempf", "AWP sensor value for tempf"⟩
    [("tempf", ⟨"awp_tempf", "AWP sensor value for tempf"⟩)] (by decide) (by rfl)

/-- A `getGauge` call for one field never disturbs the lookup of another. -/
lemma getGauge_lookup_other (R : Registry) (f k : String) (g : GaugeVec)
    (R2 : Registry) (hok : getGauge R f = .ok (g, R2)) (hne : k ≠ f) :
    R2.lookup k = R.lookup k := by
  unfold getGauge at hok
  cases hl : R.lookup f with
  | some g2 =>
    rw [hl] at hok
    simp at hok
    rw [← hok.2]
  | none =>
    rw [hl] at hok
    by_cases hv : validMetricName ("awp_" ++ f) = true
    · simp [hv] at hok
      rw [← hok.2]
      exact lookup_append_single R k f _ hne
    · simp [hv] at hok

/-- The metrics loop leaves every ignored field alone: its registry lookup
is untouched and no `Set` call is issued for it. -/
lemma processVals_ignored (st k : String)
    (h : goToUpper k ∈ ignoredKeys) :
    ∀ (vals : Values) (R : Registry),
      ((processVals st R vals).1).lookup k = R.lookup k ∧
      ∀ op ∈ (processVals st R vals).2.1, op.field ≠ k := by
  intro vals
  induction vals with
  | nil =>
    intro R
    simp [processVals]
  | cons p rest ih =>
    intro R
    rcases p with ⟨k2, vv⟩
    by_cases hik : goToUpper k2 ∈ ignoredKeys
    · simpa [processVals, hik] using ih R
    · have hk2 : k ≠ k2 := by
        intro he
        rw [he] at h
        exact hik h
      cases vv with
      | nil => simp [processVals, hik]
      | cons v tl =>
        by_cases hp : goParseFloatAccepts v = true
        · cases hg : getGauge R k2 with
          | error e => simp [processVals, hik, hp, hg]
          | ok pr =>
            rcases pr with ⟨g, R2⟩
            have hR2 : R2.lookup k = R.lookup k :=
              getGauge_lookup_other R k2 k g R2 hg hk2
            have hih := ih R2
            simp [processVals, hik, hp, hg]
            exact ⟨hih.1.trans hR2, fun he => hk2 he.symm, hih.2⟩
        · simpa [processVals, hik, hp] using ih R

/-- C7: a field whose upper-cased name is in the Ignored-Field Set
(`PASSKEY`, `MAC`, `STATIONTYPE`, `SOFTWARETYPE`, `DATEUTC`, `TZ`) never
creates or updates a registry entry — its lookup is exactly as before the
request and no gauge `Set` call names it — while the Mirror Dispatcher is
handed the complete decoded observation set (and station) of the request,
ignored pairs included. -/
theorem c7_ignored_fields (R : Registry) (st : String) (vals : Values) (k : String)
    (h : ignoredKeys.contains (goToUpper k) = true) :
    ((processVals st R vals).1).lookup k = R.lookup k ∧
    (∀ op ∈ (processVals st R vals).2.1, op.field ≠ k) ∧
    (∀ (R0 : Registry) (u : ReqURL),
      (reportHandler R0 u).mirror.vals = (decodeReport u).2.1 ∧
      (reportHandler R0 u).mirror.station = (decodeReport u).1) :=
  have hmem : goToUpper k ∈ ignoredKeys := by simpa using h
  ⟨(processVals_ignored st k hmem vals R).1,
    (processVals_ignored st k hmem vals R).2,
    fun _ _ => ⟨rfl, rfl⟩⟩

/-- C7 witness: a `PASSKEY` pair is absent from the registry and Set calls
but present in the observation set handed to the mirror. -/
theorem c7_ignored_fields_witness :
    ((processVals "ST" [] [("PASSKEY", ["abc"]), ("tempf", ["72.5"])]).1).lookup "PASSKEY" =
      (([] : Registry)).lookup "PASSKEY" ∧
    (∀ op ∈ (processVals "ST" [] [("PASSKEY", ["abc"]), ("tempf", ["72.5"])]).2.1,
      op.field ≠ "PASSKEY") ∧
    (reportHandler [] ⟨"/data/report/ST", "PASSKEY=abc&tempf=72.5"⟩).mirror.vals =
      (decodeReport ⟨"/data/report/ST", "PASSKEY=abc&tempf=72.5"⟩).2.1 := by
  have hc := c7_ignored_fields [] "ST" [("PASSKEY", ["abc"]), ("tempf", ["72.5"])]
    "PASSKEY" (by decide)
  exact ⟨hc.1, hc.2.1, (hc.2.2 [] ⟨"/data/report/ST", "PASSKEY=abc&tempf=72.5"⟩).1⟩

/-- C8: a pair whose value is not a parseable number is skipped — the
metrics loop behaves exactly as if the pair were absent, so it creates no
registry entry, sets no gauge value, and leaves every sibling pair's
processing untouched; it is never fatal. -/
theorem c8_nonnumeric_skipped (R : Registry) (st k v : String) (vs : List String)
    (l1 l2 : Values) (h : goParseFloatAccepts v = false) :
    processVals st R (l1 ++ (k, v :: vs) :: l2) = processVals st R (l1 ++ l2) := by
  induction l1 generalizing R with
  | nil =>
    simp only [List.nil_append]
    by_cases hik : goToUpper k ∈ ignoredKeys
    · simp [processVals, hik]
    · simp [processVals, hik, h]
  | cons p l1 ih =>
    rcases p with ⟨k2, vv2⟩
    simp only [List.cons_append]
    by_cases hik : goToUpper k2 ∈ ignoredKeys
    · simp [processVals, hik, ih]
    · cases vv2 with
      | nil => simp [processVals, hik]
      | cons v2 tl2 =>
        by_cases hp : goParseFloatAccepts v2 = true
        · cases hg : getGauge R k2 with
          | error e => simp [processVals, hik, hp, hg]
          | ok pr =>
            rcases pr with ⟨g, R2⟩
            simp [processVals, hik, hp, hg, ih]
        · simp [processVals, hik, hp, ih]

/-- C8 witness: `windspeedmph=N/A` is skipped while its siblings in the
same request are processed as if it were never sent. -/
theorem c8_nonnumeric_skipped_witness :
    goParseFloatAccepts "N/A" = false ∧
    processVals "ST" [] [("tempf", ["72.5"]), ("windspeedmph", ["N/A"]), ("humidity", ["45"])] =
      processVals "ST" [] [("tempf", ["72.5"]), ("humidity", ["45"])] :=
  ⟨by decide,
    c8_nonnumeric_skipped [] "ST" "windspeedmph" "N/A" []
      [("tempf", ["72.5"])] [("humidity", ["45"])] (by decide)⟩

/-- C9: when the request carries a non-empty standard query component, that
branch takes precedence: the observation set comes from the query alone,
the path is never cut at `&`, and the station is the final segment of the
full path — so for `/data/report/STATION&tempf=72.5?humidity=45`-style
inputs the text after the embedded `&` stays inside the station
identifier instead of becoming observation pairs. -/
theorem c9_query_precedence (u : ReqURL) (h : u.rawQuery ≠ "") :
    decodeReport u = (pathBase u.path, parseQuery u.rawQuery) ∧
    decodeReport ⟨"/data/report/STATION&tempf=72.5", "humidity=45"⟩ =
      ("STATION&tempf=72.5", [("humidity", ["45"])], false) := by
  constructor
  · simp [decodeReport, h]
  · decide

/-- C9 witness: the precedence rule at a path with an embedded `&`. -/
theorem c9_query_precedence_witness :
    decodeReport ⟨"/data/report/STATION&tempf=72.5", "humidity=45"⟩ =
      (pathBase "/data/report/STATION&tempf=72.5", parseQuery "humidity=45") :=
  (c9_query_precedence ⟨"/data/report/STATION&tempf=72.5", "humidity=45"⟩ (by decide)).1

/-- C10: for a field name `F` such that `awp_F` is not a valid Prometheus
metric name, `getGauge` on any registry the process can reach does not
return normally — registration panics — and the registry map is unchanged
by the failed call (the insert sits after `MustRegister`). -/
theorem c10_invalid_name_panics (ops : List RegOp) (f : String)
    (h : validMetricName ("awp_" ++ f) = false) :
    (∃ e, getGauge (runOps [] ops) f = .error e) ∧
    runGetGauge (runOps [] ops) f = runOps [] ops := by
  have hnotin : f ∉ registryKeys (runOps [] ops) := by
    intro hin
    have hv := keys_valid_runOps [] ops (by simp [registryKeys]) f hin
    rw [h] at hv
    exact Bool.false_ne_true hv
  have hl : (runOps [] ops).lookup f = none := (lookup_eq_none_iff _ f).mpr hnotin
  constructor
  · refine ⟨"descriptor invalid: " ++ ("awp_" ++ f), ?_⟩
    unfold getGauge
    rw [hl]
    simp [h]
  · unfold runGetGauge getGauge
    rw [hl]
    simp [h]

/-- C10 witness: `wind-speed` (hyphen) aborts registration on a concrete
reachable registry, leaving it unchanged. -/
theorem c10_invalid_name_panics_witness :
    validMetricName ("awp_" ++ "wind-speed") = false ∧
    runGetGauge (runOps [] [RegOp.get "tempf"]) "wind-speed" =
      runOps [] [RegOp.get "tempf"] :=
  ⟨by decide, (c10_invalid_name_panics [RegOp.get "tempf"] "wind-speed" (by decide)).2⟩

end Awp
